import Mathlib

/-!
Verification of the MiniOS microkernel simulator core: a shallow embedding of
the scheduler, virtual-memory manager, heap allocator and IPC manager, with
theorems settling the specification claims about them.

Machine integers (`TaskId`, counters, sizes) are modelled as `Nat`: every
operation considered here only increments these counters a bounded number of
times per call, far from the `2^32`/`2^64` wrap, so overflow never matters on
the inputs the claims quantify over.  `std::map` fields are modelled either as
association lists with unique keys (insertion via `aupdate`, which replaces an
existing binding) or, for the small fixed key space of priorities, as total
functions defaulting to the empty queue, which is observationally identical to
a `std::map` that returns an empty/absent queue for missing keys.
-/

namespace MiniOS

/-! ### Association-list helpers (model of `std::map`) -/

/-- Lookup in an association list: the value of the first pair with key `k`. -/
def alookup {κ α : Type} [DecidableEq κ] (k : κ) : List (κ × α) → Option α
  | [] => none
  | (k', v) :: rest => if k' = k then some v else alookup k rest

/-- Insert-or-assign, as `std::map::operator[]`/`insert_or_assign`: replaces the
first binding of `k`, or appends a new one. -/
def aupdate {κ α : Type} [DecidableEq κ] (k : κ) (v : α) : List (κ × α) → List (κ × α)
  | [] => [(k, v)]
  | (k', v') :: rest => if k' = k then (k, v) :: rest else (k', v') :: aupdate k v rest

/-- Erase the first binding of `k`, as `std::map::erase`. -/
def aerase {κ α : Type} [DecidableEq κ] (k : κ) : List (κ × α) → List (κ × α)
  | [] => []
  | (k', v') :: rest => if k' = k then rest else (k', v') :: aerase k rest

theorem alookup_aupdate_self {κ α : Type} [DecidableEq κ] (k : κ) (v : α) (l : List (κ × α)) :
    alookup k (aupdate k v l) = some v := by
  induction l with
  | nil => simp [alookup, aupdate]
  | cons hd tl ih =>
    obtain ⟨k', v'⟩ := hd
    by_cases h : k' = k
    · simp [alookup, aupdate, h]
    · simp [alookup, aupdate, h, ih]

theorem alookup_aupdate_ne {κ α : Type} [DecidableEq κ] {k k' : κ} (v : α) (l : List (κ × α))
    (h : k' ≠ k) : alookup k' (aupdate k v l) = alookup k' l := by
  have hkk : ¬(k = k') := fun e => h (Eq.symm e)
  induction l with
  | nil => simp [alookup, aupdate, hkk]
  | cons hd tl ih =>
    obtain ⟨k₀, v₀⟩ := hd
    by_cases h0 : k₀ = k
    · subst h0
      simp [alookup, aupdate, hkk]
    · simp [alookup, aupdate, h0, ih]

end MiniOS

namespace MiniOS

/-! ### Scheduler (src/scheduler/scheduler.cpp) -/

/-- `INVALID_TASK_ID = 0xFFFFFFFF`. -/
def INVALID_TASK_ID : Nat := 4294967295

/-- `TIME_QUANTUM_MS = 100`. -/
def TIME_QUANTUM_MS : Nat := 100

inductive TaskState where
  | Created | Ready | Running | Blocked | Waiting | Terminated
  deriving DecidableEq, Repr

inductive TaskPriority where
  | Idle | Low | Normal | High | RealTime
  deriving DecidableEq, Repr

inductive SchedulerType where
  | RoundRobin | Priority
  deriving DecidableEq, Repr

/-- The scheduling-relevant fields of `TaskControlBlock` (name, stack, parent,
timestamps and file descriptors are never read by the operations below). -/
structure TCB where
  id : Nat
  state : TaskState
  priority : TaskPriority
  timeSliceRemaining : Nat
  cpuTimeMs : Nat
  deriving DecidableEq, Repr

/-- Scheduler state.  `prioQueues` models `std::map<TaskPriority, deque>` as a
total function: a missing key behaves exactly like an empty queue in every
operation of the source (`operator[]` default-inserts an empty deque). -/
structure SchedState where
  stype : SchedulerType
  nextTaskId : Nat
  currentTaskId : Nat
  tasks : List (Nat × TCB)
  readyQueue : List Nat
  prioQueues : TaskPriority → List Nat
  tickCount : Nat

def initSched (t : SchedulerType) : SchedState :=
  { stype := t, nextTaskId := 1, currentTaskId := INVALID_TASK_ID,
    tasks := [], readyQueue := [], prioQueues := fun _ => [], tickCount := 0 }

/-- Erase the first occurrence, as `deque::erase(std::find(...))`. -/
def eraseFirst (id : Nat) : List Nat → List Nat
  | [] => []
  | x :: xs => if x = id then xs else x :: eraseFirst id xs

/-- `Scheduler::addToReadyQueue`. -/
def addToReadyQueue (id : Nat) (s : SchedState) : SchedState :=
  match alookup id s.tasks with
  | none => s
  | some tcb =>
    match s.stype with
    | .RoundRobin =>
      if id ∈ s.readyQueue then s
      else { s with readyQueue := s.readyQueue ++ [id] }
    | .Priority =>
      let q := s.prioQueues tcb.priority
      if id ∈ q then s
      else { s with prioQueues := fun p => if p = tcb.priority then q ++ [id] else s.prioQueues p }

/-- The five priorities in ascending `std::map` key order. -/
def prioAscending : List TaskPriority := [.Idle, .Low, .Normal, .High, .RealTime]

/-- The scan order of `Scheduler::selectPriority` (RealTime down to Idle). -/
def prioDescending : List TaskPriority := [.RealTime, .High, .Normal, .Low, .Idle]

/-- `Scheduler::removeFromReadyQueue`: under priority scheduling the source
iterates the map in key order and breaks after the first queue containing `id`. -/
def removeFromReadyQueue (id : Nat) (s : SchedState) : SchedState :=
  match s.stype with
  | .RoundRobin => { s with readyQueue := eraseFirst id s.readyQueue }
  | .Priority =>
    match prioAscending.find? (fun p => (s.prioQueues p).contains id) with
    | none => s
    | some p => { s with prioQueues := fun p' => if p' = p then eraseFirst id (s.prioQueues p) else s.prioQueues p' }

/-- `Scheduler::selectRoundRobin`. -/
def selectRoundRobin (s : SchedState) : Nat :=
  match s.readyQueue with
  | [] => INVALID_TASK_ID
  | x :: _ => x

/-- `Scheduler::selectPriority`. -/
def selectPriorityTask (s : SchedState) : Nat :=
  match prioDescending.find? (fun p => !(s.prioQueues p).isEmpty) with
  | none => INVALID_TASK_ID
  | some p => (s.prioQueues p).headD INVALID_TASK_ID

/-- `Scheduler::selectNextTask`. -/
def selectNextTask (s : SchedState) : Nat :=
  match s.stype with
  | .RoundRobin => selectRoundRobin s
  | .Priority => selectPriorityTask s

/-- `Scheduler::getCurrentTask`. -/
def getCurrentTask (s : SchedState) : Option TCB :=
  if s.currentTaskId = INVALID_TASK_ID then none else alookup s.currentTaskId s.tasks

/-- `Scheduler::schedule`.  The source dereferences the selected task's TCB
unconditionally; the `none` fallback below is unreachable whenever the ready
structures only hold registered ids, and then mirrors the remaining writes. -/
def schedule (s : SchedState) : SchedState :=
  let next := selectNextTask s
  if next = INVALID_TASK_ID then s
  else if next = s.currentTaskId then s
  else
    let s1 : SchedState := match getCurrentTask s with
      | some tcb =>
        if tcb.state = .Running then
          addToReadyQueue s.currentTaskId
            { s with tasks := aupdate s.currentTaskId { tcb with state := .Ready } s.tasks }
        else s
      | none => s
    let s2 : SchedState := match alookup next s1.tasks with
      | some tcb =>
        { s1 with currentTaskId := next,
                  tasks := aupdate next
                    { tcb with state := .Running, timeSliceRemaining := TIME_QUANTUM_MS } s1.tasks }
      | none => { s1 with currentTaskId := next }
    removeFromReadyQueue next s2

/-- `Scheduler::createTask` (the TCB is constructed in `Created` and set to
`Ready` before insertion; the entry function is never invoked). -/
def createTask (priority : TaskPriority) (s : SchedState) : Nat × SchedState :=
  let id := s.nextTaskId
  let tcb : TCB := { id := id, state := .Ready, priority := priority,
                     timeSliceRemaining := TIME_QUANTUM_MS, cpuTimeMs := 0 }
  let s1 := { s with nextTaskId := id + 1, tasks := aupdate id tcb s.tasks }
  (id, addToReadyQueue id s1)

/-- `Scheduler::terminateTask`. -/
def terminateTask (id : Nat) (s : SchedState) : Bool × SchedState :=
  match alookup id s.tasks with
  | none => (false, s)
  | some tcb =>
    let s1 := removeFromReadyQueue id
      { s with tasks := aupdate id { tcb with state := .Terminated } s.tasks }
    if s1.currentTaskId = id then
      (true, schedule { s1 with currentTaskId := INVALID_TASK_ID })
    else (true, s1)

/-- `Scheduler::blockTask`. -/
def blockTask (id : Nat) (s : SchedState) : Bool × SchedState :=
  match alookup id s.tasks with
  | none => (false, s)
  | some tcb =>
    if tcb.state ≠ .Running ∧ tcb.state ≠ .Ready then (false, s)
    else
      let s1 := removeFromReadyQueue id
        { s with tasks := aupdate id { tcb with state := .Blocked } s.tasks }
      if s1.currentTaskId = id then (true, schedule s1) else (true, s1)

/-- `Scheduler::unblockTask`. -/
def unblockTask (id : Nat) (s : SchedState) : Bool × SchedState :=
  match alookup id s.tasks with
  | none => (false, s)
  | some tcb =>
    if tcb.state ≠ .Blocked then (false, s)
    else (true, addToReadyQueue id { s with tasks := aupdate id { tcb with state := .Ready } s.tasks })

/-- `Scheduler::yield`. -/
def yieldTask (s : SchedState) : SchedState :=
  match getCurrentTask s with
  | none => s
  | some tcb =>
    schedule { s with tasks := aupdate s.currentTaskId { tcb with timeSliceRemaining := 0 } s.tasks }

/-- `Scheduler::tick`. -/
def tick (s : SchedState) : SchedState :=
  let s0 := { s with tickCount := s.tickCount + 1 }
  match getCurrentTask s0 with
  | none => schedule s0
  | some tcb =>
    if 0 < tcb.timeSliceRemaining then
      let tcb1 := { tcb with timeSliceRemaining := tcb.timeSliceRemaining - 1,
                             cpuTimeMs := tcb.cpuTimeMs + 1 }
      let s1 := { s0 with tasks := aupdate s0.currentTaskId tcb1 s0.tasks }
      if tcb1.timeSliceRemaining = 0 then schedule s1 else s1
    else
      if tcb.timeSliceRemaining = 0 then schedule s0 else s0

/-- `Scheduler::setSchedulerType`: the source only assigns the discipline flag. -/
def setSchedulerType (t : SchedulerType) (s : SchedState) : SchedState :=
  if s.stype ≠ t then { s with stype := t } else s

/-- `Scheduler::getReadyQueueSize`. -/
def getReadyQueueSize (s : SchedState) : Nat :=
  match s.stype with
  | .RoundRobin => s.readyQueue.length
  | .Priority => (prioAscending.map (fun p => (s.prioQueues p).length)).sum

end MiniOS

namespace MiniOS

/-! ### Claims about the scheduler -/

/-- Round-robin scheduler holding the three Normal tasks T1, T2, T3 of
scenario S1, created in that order. -/
def rrThreeTasks : SchedState :=
  (createTask .Normal (createTask .Normal (createTask .Normal (initSched .RoundRobin)).2).2).2

/-- S1 after `schedule`. -/
def rrAfterSchedule : SchedState := schedule rrThreeTasks

/-- S1 after the first, second and third `yield`. -/
def rrAfterYield1 : SchedState := yieldTask rrAfterSchedule

def rrAfterYield2 : SchedState := yieldTask rrAfterYield1

def rrAfterYield3 : SchedState := yieldTask rrAfterYield2

/-- Claim C2: under round-robin, after creating Normal tasks T1, T2, T3 in
order, `schedule` makes T1 current, and each successive `yield` rotates the
current task to T2, then T3, then back to T1, re-enqueueing the previously
running task at the tail of the ready FIFO. -/
theorem c2_round_robin_rotation :
    rrThreeTasks.readyQueue = [1, 2, 3] ∧
    rrAfterSchedule.currentTaskId = 1 ∧ rrAfterSchedule.readyQueue = [2, 3] ∧
    rrAfterYield1.currentTaskId = 2 ∧ rrAfterYield1.readyQueue = [3, 1] ∧
    rrAfterYield2.currentTaskId = 3 ∧ rrAfterYield2.readyQueue = [1, 2] ∧
    rrAfterYield3.currentTaskId = 1 ∧ rrAfterYield3.readyQueue = [2, 3] := by
  decide

/-- Claim C9: blocking the currently running task while the ready structure is
empty leaves `currentTaskId` pointing at the blocked task, and `getCurrentTask`
then returns its TCB with state `Blocked`: the scheduler's "current task" can
refer to a non-Running task. -/
theorem c9_block_current_task_stays_current (s : SchedState) (tid : Nat) (tcb : TCB)
    (hcur : s.currentTaskId = tid) (hid : tid ≠ INVALID_TASK_ID)
    (htcb : alookup tid s.tasks = some tcb) (hrun : tcb.state = TaskState.Running)
    (hempty : getReadyQueueSize s = 0) :
    (blockTask tid s).1 = true ∧
    (blockTask tid s).2.currentTaskId = tid ∧
    getCurrentTask (blockTask tid s).2 = some { tcb with state := TaskState.Blocked } := by
  obtain ⟨st, nid, cid, tks, rq, pq, tc⟩ := s
  simp only at hcur htcb hempty
  subst hcur
  have hid' : ¬(cid = 4294967295) := by simpa [INVALID_TASK_ID] using hid
  cases st with
  | RoundRobin =>
    have hrq : rq = [] := by simpa [getReadyQueueSize] using hempty
    subst hrq
    simp [blockTask, htcb, hrun, removeFromReadyQueue, eraseFirst, schedule,
          selectNextTask, selectRoundRobin, getCurrentTask, hid', alookup_aupdate_self,
          INVALID_TASK_ID]
  | Priority =>
    have hpq : ∀ p, pq p = [] := by
      have h5 := hempty
      simp [getReadyQueueSize, prioAscending, Nat.add_eq_zero,
            List.length_eq_zero] at h5
      obtain ⟨h1, h2, h3, h4, h5'⟩ := h5
      intro p
      cases p <;> assumption
    have hpqe : pq = fun _ => [] := funext hpq
    subst hpqe
    simp [blockTask, htcb, hrun, removeFromReadyQueue, schedule, List.find?,
          prioAscending, prioDescending,
          selectNextTask, selectPriorityTask, getCurrentTask, hid', alookup_aupdate_self,
          INVALID_TASK_ID]

/-- Witness for C9 at a concrete scheduler: one task created and scheduled,
then blocked while running with nothing else ready. -/
theorem c9_witness :
    let s := schedule (createTask .Normal (initSched .RoundRobin)).2
    (blockTask 1 s).1 = true ∧
    (blockTask 1 s).2.currentTaskId = 1 ∧
    getCurrentTask (blockTask 1 s).2 =
      some { id := 1, state := .Blocked, priority := .Normal,
             timeSliceRemaining := 100, cpuTimeMs := 0 } :=
  c9_block_current_task_stays_current _ 1
    ⟨1, .Running, .Normal, 100, 0⟩ (by decide) (by decide) (by decide) rfl (by decide)

/-- A fresh round-robin scheduler holding one Ready Normal task. -/
def rrOneReady : SchedState := (createTask .Normal (initSched .RoundRobin)).2

/-- The same scheduler right after `setSchedulerType(Priority)`. -/
def rrSwitched : SchedState := setSchedulerType .Priority rrOneReady

/-- Claim C1 (failing input): `setSchedulerType` only assigns the discipline
flag and never re-places Ready tasks, so switching a fresh round-robin
scheduler holding one Ready task to priority scheduling drops the ready set:
`getReadyQueueSize` falls from 1 to 0 and `selectNextTask` finds nothing,
while task 1 is still `Ready`. -/
theorem c1_switch_drops_ready_tasks :
    getReadyQueueSize rrOneReady = 1 ∧
    (alookup 1 rrOneReady.tasks).map TCB.state = some .Ready ∧
    (alookup 1 rrSwitched.tasks).map TCB.state = some .Ready ∧
    getReadyQueueSize rrSwitched = 0 ∧
    selectNextTask rrSwitched = INVALID_TASK_ID := by
  decide

end MiniOS

namespace MiniOS

/-! ### IPC manager (src/ipc/ipc.cpp, include/ipc/ipc.hpp) -/

/-- `MAX_MESSAGE_SIZE = 4096`. -/
def MAX_MESSAGE_SIZE : Nat := 4096

inductive MessageType where
  | Data | Signal | Request | Response | Notification
  deriving DecidableEq, Repr

/-- `Message` (the timestamp is never read by any IPC operation). -/
structure Message where
  id : Nat
  senderId : Nat
  receiverId : Nat
  type : MessageType
  payload : List Nat
  isBlocking : Bool
  deriving DecidableEq, Repr

/-- IPC manager state; each mailbox is a FIFO with its head at the list head. -/
structure IPCState where
  messageQueues : List (Nat × List Message)
  nextMessageId : Nat
  totalMessagesSent : Nat
  totalMessagesReceived : Nat

def initIPC : IPCState :=
  { messageQueues := [], nextMessageId := 1, totalMessagesSent := 0, totalMessagesReceived := 0 }

/-- `IPCManager::registerTask`. -/
def registerTask (taskId : Nat) (st : IPCState) : Bool × IPCState :=
  match alookup taskId st.messageQueues with
  | some _ => (false, st)
  | none => (true, { st with messageQueues := aupdate taskId [] st.messageQueues })

/-- `IPCManager::unregisterTask`. -/
def unregisterTask (taskId : Nat) (st : IPCState) : Bool × IPCState :=
  match alookup taskId st.messageQueues with
  | none => (false, st)
  | some _ => (true, { st with messageQueues := aerase taskId st.messageQueues })

/-- The payload actually stored by `sendMessage`: `setPayload` is invoked only
when `data && size > 0`, and itself copies only when `size <= MAX_MESSAGE_SIZE`;
otherwise the payload stays empty. -/
def sentPayload (data : List Nat) : List Nat :=
  if data.length ≠ 0 ∧ data.length ≤ MAX_MESSAGE_SIZE then data else []

/-- `IPCManager::sendMessage`. -/
def sendMessage (sender receiver : Nat) (data : List Nat) (ty : MessageType)
    (blocking : Bool) (st : IPCState) : Nat × IPCState :=
  match alookup receiver st.messageQueues with
  | none => (0, st)
  | some q =>
    let msgId := st.nextMessageId
    let msg : Message := { id := msgId, senderId := sender, receiverId := receiver,
                           type := ty, payload := sentPayload data, isBlocking := blocking }
    (msgId, { st with messageQueues := aupdate receiver (q ++ [msg]) st.messageQueues,
                      nextMessageId := msgId + 1,
                      totalMessagesSent := st.totalMessagesSent + 1 })

/-- `IPCManager::receiveMessage`. -/
def receiveMessage (receiver : Nat) (st : IPCState) : Option Message × IPCState :=
  match alookup receiver st.messageQueues with
  | none => (none, st)
  | some q =>
    match q.head? with
    | none => (none, st)
    | some m =>
      (some m, { st with messageQueues := aupdate receiver q.tail st.messageQueues,
                         totalMessagesReceived := st.totalMessagesReceived + 1 })

/-- `IPCManager::receiveMessageFrom` (peek, dequeue only on sender match; the
received-messages counter is not touched by this path in the source). -/
def receiveMessageFrom (receiver sender : Nat) (st : IPCState) : Option Message × IPCState :=
  match alookup receiver st.messageQueues with
  | none => (none, st)
  | some q =>
    match q.head? with
    | none => (none, st)
    | some m =>
      if m.senderId = sender then
        (some m, { st with messageQueues := aupdate receiver q.tail st.messageQueues })
      else (none, st)

/-- The poll loop of `IPCManager::sendAndWaitReply`: each iteration calls
`receiveMessageFrom(sender, receiver, false)` and returns only on a `Response`;
the wall-clock deadline is modelled by the number of polls left before it
elapses (`fuel`). -/
def pollReply (sender receiver : Nat) : Nat → IPCState → Option Message × IPCState
  | 0, st => (none, st)
  | n + 1, st =>
    match receiveMessageFrom sender receiver st with
    | (some m, st1) =>
      if m.type = .Response then (some m, st1) else pollReply sender receiver n st1
    | (none, st1) => pollReply sender receiver n st1

/-- `IPCManager::sendAndWaitReply` with the timeout abstracted to a poll count. -/
def sendAndWaitReply (sender receiver : Nat) (data : List Nat) (fuel : Nat)
    (st : IPCState) : Option Message × IPCState :=
  let r := sendMessage sender receiver data .Request true st
  if r.1 = 0 then (none, r.2) else pollReply sender receiver fuel r.2

/-- While the waiter's own mailbox never holds a `Response` from `receiver`,
polling returns `none` and never touches any other mailbox. -/
theorem pollReply_no_response (sender receiver : Nat) (hne : sender ≠ receiver) :
    ∀ (fuel : Nat) (st : IPCState),
    (∀ m ∈ (alookup sender st.messageQueues).getD [],
        ¬(m.senderId = receiver ∧ m.type = MessageType.Response)) →
    (pollReply sender receiver fuel st).1 = none ∧
    alookup receiver (pollReply sender receiver fuel st).2.messageQueues
      = alookup receiver st.messageQueues := by
  intro fuel
  induction fuel with
  | zero => intro st _; simp [pollReply]
  | succ n ih =>
    intro st h
    cases hq : alookup sender st.messageQueues with
    | none =>
      have := ih st h
      simpa [pollReply, receiveMessageFrom, hq] using this
    | some q =>
      cases q with
      | nil =>
        have := ih st h
        simpa [pollReply, receiveMessageFrom, hq] using this
      | cons m rest =>
        by_cases hms : m.senderId = receiver
        · have hmr : ¬(m.type = MessageType.Response) := by
            have hm := h m (by simp [hq])
            intro hr
            exact hm ⟨hms, hr⟩
          have h1 : ∀ m' ∈ (alookup sender
              { st with messageQueues := aupdate sender rest st.messageQueues
              }.messageQueues).getD [],
              ¬(m'.senderId = receiver ∧ m'.type = MessageType.Response) := by
            intro m' hm'
            simp only [alookup_aupdate_self] at hm'
            exact h m' (by simp [hq, List.mem_cons]; exact Or.inr hm')
          have := ih _ h1
          simp only [pollReply, receiveMessageFrom, hq] at *
          simp only [List.head?, List.tail, hms, if_true, hmr, if_false] at *
          refine ⟨this.1, ?_⟩
          rw [this.2]
          simp [alookup_aupdate_ne _ _ (fun e => hne (Eq.symm e))]
        · have := ih st h
          simpa [pollReply, receiveMessageFrom, hq, List.head?, hms] using this

/-- Claim C6: `sendAndWaitReply` from a registered sender to a registered
receiver whose mailbox nobody ever services returns `none` once the timeout
(poll budget) elapses, and the `Request` it sent — carrying the id it was
assigned — is still in the receiver's mailbox afterwards: the request is not
retracted on timeout. -/
theorem c6_timeout_leaves_request (st : IPCState) (sender receiver : Nat)
    (data : List Nat) (fuel : Nat) (qR : List Message)
    (hne : sender ≠ receiver)
    (hreg : alookup receiver st.messageQueues = some qR)
    (hpos : 1 ≤ st.nextMessageId)
    (hnoresp : ∀ m ∈ (alookup sender st.messageQueues).getD [],
        ¬(m.senderId = receiver ∧ m.type = MessageType.Response)) :
    (sendAndWaitReply sender receiver data fuel st).1 = none ∧
    ∃ m, alookup receiver (sendAndWaitReply sender receiver data fuel st).2.messageQueues
          = some (qR ++ [m]) ∧ m.type = MessageType.Request ∧ m.id = st.nextMessageId := by
  have hid0 : ¬(st.nextMessageId = 0) := by omega
  set msg : Message := { id := st.nextMessageId, senderId := sender, receiverId := receiver,
                         type := .Request, payload := sentPayload data, isBlocking := true }
  have hsend : sendMessage sender receiver data .Request true st =
      (st.nextMessageId,
       { st with messageQueues := aupdate receiver (qR ++ [msg]) st.messageQueues,
                 nextMessageId := st.nextMessageId + 1,
                 totalMessagesSent := st.totalMessagesSent + 1 }) := by
    simp [sendMessage, hreg, msg]
  set st1 : IPCState :=
    { st with messageQueues := aupdate receiver (qR ++ [msg]) st.messageQueues,
              nextMessageId := st.nextMessageId + 1,
              totalMessagesSent := st.totalMessagesSent + 1 }
  have h1 : ∀ m ∈ (alookup sender st1.messageQueues).getD [],
      ¬(m.senderId = receiver ∧ m.type = MessageType.Response) := by
    intro m hm
    have : alookup sender st1.messageQueues = alookup sender st.messageQueues := by
      simp only [st1]
      exact alookup_aupdate_ne _ _ hne
    rw [this] at hm
    exact hnoresp m hm
  have hpoll := pollReply_no_response sender receiver hne fuel st1 h1
  have hrecv1 : alookup receiver st1.messageQueues = some (qR ++ [msg]) := by
    simp only [st1]
    exact alookup_aupdate_self _ _ _
  constructor
  · simp only [sendAndWaitReply, hsend, hid0, if_false]
    exact hpoll.1
  · refine ⟨msg, ?_, rfl, rfl⟩
    simp only [sendAndWaitReply, hsend, hid0, if_false]
    rw [hpoll.2, hrecv1]

/-- Witness for C6: tasks 1 and 2 registered, nobody services 2's mailbox,
three polls' worth of timeout. -/
theorem c6_witness :
    let st := (registerTask 2 (registerTask 1 initIPC).2).2
    (sendAndWaitReply 1 2 [10] 3 st).1 = none ∧
    ∃ m, alookup 2 (sendAndWaitReply 1 2 [10] 3 st).2.messageQueues = some ([] ++ [m]) ∧
         m.type = MessageType.Request ∧ m.id = 1 :=
  c6_timeout_leaves_request _ 1 2 [10] 3 [] (by decide) (by decide) (by decide)
    (by decide)

/-- Claim C7: `sendMessage` to a registered receiver with an oversize payload
(> 4096 bytes) still assigns and returns the next message id (nonzero) and
enqueues the message at the mailbox tail, but the enqueued message carries an
empty payload. -/
theorem c7_oversize_payload_dropped (st : IPCState) (sender receiver : Nat)
    (data : List Nat) (ty : MessageType) (blocking : Bool) (q : List Message)
    (hq : alookup receiver st.messageQueues = some q)
    (hbig : MAX_MESSAGE_SIZE < data.length) (hpos : 1 ≤ st.nextMessageId) :
    (sendMessage sender receiver data ty blocking st).1 = st.nextMessageId ∧
    (sendMessage sender receiver data ty blocking st).1 ≠ 0 ∧
    alookup receiver (sendMessage sender receiver data ty blocking st).2.messageQueues =
      some (q ++ [{ id := st.nextMessageId, senderId := sender, receiverId := receiver,
                    type := ty, payload := [], isBlocking := blocking }]) := by
  have hdrop : sentPayload data = [] := by
    have : ¬(data.length ≤ MAX_MESSAGE_SIZE) := by omega
    simp [sentPayload, this]
  refine ⟨?_, ?_, ?_⟩
  · simp [sendMessage, hq]
  · simp [sendMessage, hq]
    omega
  · simp [sendMessage, hq, hdrop, alookup_aupdate_self]

/-- Witness for C7: a 4097-byte payload to registered task 2. -/
theorem c7_witness :
    let st := (registerTask 2 (registerTask 1 initIPC).2).2
    let data := List.replicate 4097 0
    (sendMessage 1 2 data .Data false st).1 = 1 ∧
    (sendMessage 1 2 data .Data false st).1 ≠ 0 ∧
    alookup 2 (sendMessage 1 2 data .Data false st).2.messageQueues =
      some ([] ++ [{ id := 1, senderId := 1, receiverId := 2,
                     type := .Data, payload := [], isBlocking := false }]) :=
  c7_oversize_payload_dropped _ 1 2 _ .Data false [] (by decide)
    (by rw [List.length_replicate]; decide) (by decide)

/-- Claim C10: `sendMessage` to an unregistered receiver returns 0 and leaves
the whole IPC state unchanged — in particular the next-message-id counter, the
mailboxes and the sent counter — so failed sends never consume message ids. -/
theorem c10_send_unregistered_is_noop (st : IPCState) (sender receiver : Nat)
    (data : List Nat) (ty : MessageType) (blocking : Bool)
    (h : alookup receiver st.messageQueues = none) :
    sendMessage sender receiver data ty blocking st = (0, st) := by
  simp [sendMessage, h]

/-- Witness for C10: sending to never-registered task 7. -/
theorem c10_witness :
    sendMessage 1 7 [3] .Data false ((registerTask 1 initIPC).2) =
      (0, (registerTask 1 initIPC).2) :=
  c10_send_unregistered_is_noop _ 1 7 [3] .Data false (by decide)

end MiniOS

namespace MiniOS

/-! ### Heap allocator (class `HeapAllocator` in src/mm/memory_manager.cpp) -/

/-- `sizeof(BlockHeader)` on the LP64 target the source builds for:
`size_t` (8) + `bool` padded to 8 + two 8-byte pointers = 32 bytes. -/
def HEADER_SIZE : Nat := 32

/-- A heap block: its header's `size` and `isFree` fields.  The `next`/`prev`
links are represented by adjacency in the block list, which the source keeps
identical to physical adjacency in the arena. -/
structure Block where
  size : Nat
  isFree : Bool
  deriving DecidableEq, Repr

/-- Heap state: the in-arena block list in address order plus the accounting
counter.  Payload byte contents are not modelled (no operation below reads
them). -/
structure HeapState where
  heapSize : Nat
  blocks : List Block
  allocatedBytes : Nat
  deriving DecidableEq, Repr

/-- `HeapAllocator::HeapAllocator(heapSize)`. -/
def initHeap (heapSize : Nat) : HeapState :=
  { heapSize := heapSize, blocks := [⟨heapSize - HEADER_SIZE, true⟩], allocatedBytes := 0 }

/-- Start address of block `k` (arena base taken as address 0). -/
def blockStart (blocks : List Block) (k : Nat) : Nat :=
  ((blocks.take k).map (fun b => HEADER_SIZE + b.size)).sum

/-- The pointer `allocate` returns for block `k`: header address plus header. -/
def payloadAddr (blocks : List Block) (k : Nat) : Nat :=
  blockStart blocks k + HEADER_SIZE

/-- `(size + 7) & ~7`. -/
def align8 (n : Nat) : Nat := ((n + 7) / 8) * 8

/-- `HeapAllocator::findFreeBlock`: index of the first free block whose size is
at least the adjusted request (the walk starts at the list head). -/
def findFreeBlock (blocks : List Block) (sz : Nat) : Option Nat :=
  blocks.findIdx? (fun b => b.isFree && sz ≤ b.size)

/-- `HeapAllocator::allocate`, with `splitBlock` inlined as the list surgery it
performs: the chosen block is resized to the adjusted request and a free tail
block holding the remainder minus one header is spliced in right after it.
The returned address models the `void*` result (0 is the null pointer). -/
def allocate (size : Nat) (s : HeapState) : Option Nat × HeapState :=
  if size = 0 then (none, s)
  else
    let adj := align8 size
    match findFreeBlock s.blocks adj with
    | none => (none, s)
    | some k =>
      let b := s.blocks.getD k ⟨0, false⟩
      if adj + HEADER_SIZE + 8 < b.size then
        (some (payloadAddr s.blocks k),
         { s with blocks := s.blocks.take k ++ [⟨adj, false⟩, ⟨b.size - adj - HEADER_SIZE, true⟩]
                            ++ s.blocks.drop (k + 1),
                  allocatedBytes := s.allocatedBytes + adj })
      else
        (some (payloadAddr s.blocks k),
         { s with blocks := s.blocks.take k ++ [⟨b.size, false⟩] ++ s.blocks.drop (k + 1),
                  allocatedBytes := s.allocatedBytes + b.size })

/-- Index of the block whose payload starts at address `ptr`, the inverse of
the header pointer arithmetic in `HeapAllocator::free`. -/
def blockIndexAt (blocks : List Block) (ptr : Nat) : Option Nat :=
  (List.range blocks.length).find? (fun k => payloadAddr blocks k == ptr)

/-- First half of `HeapAllocator::coalesce`: absorb the next block if free. -/
def mergeNext (k : Nat) (blocks : List Block) : List Block :=
  match blocks[k + 1]? with
  | some nb =>
    if nb.isFree then
      let b := blocks.getD k ⟨0, false⟩
      (blocks.set k ⟨b.size + HEADER_SIZE + nb.size, b.isFree⟩).eraseIdx (k + 1)
    else blocks
  | none => blocks

/-- Second half of `HeapAllocator::coalesce`: the previous block, if free,
absorbs block `k` (whatever `k`'s own flag is, as in the source). -/
def mergePrev (k : Nat) (blocks : List Block) : List Block :=
  if k = 0 then blocks
  else
    match blocks[k - 1]? with
    | some pb =>
      if pb.isFree then
        let b := blocks.getD k ⟨0, false⟩
        (blocks.set (k - 1) ⟨pb.size + HEADER_SIZE + b.size, pb.isFree⟩).eraseIdx k
      else blocks
    | none => blocks

/-- `HeapAllocator::free` (`ptr = 0` models the null pointer; a `ptr` that is
no block's payload is undefined behaviour in the source and a no-op here). -/
def freeBlock (ptr : Nat) (s : HeapState) : HeapState :=
  if ptr = 0 then s
  else
    match blockIndexAt s.blocks ptr with
    | none => s
    | some k =>
      let b := s.blocks.getD k ⟨0, false⟩
      if b.isFree then s
      else
        { s with blocks := mergePrev k (mergeNext k (s.blocks.set k ⟨b.size, true⟩)),
                 allocatedBytes := s.allocatedBytes - b.size }

/-- `HeapAllocator::reallocate`.  The payload copy is not modelled (byte
contents are not part of the state). -/
def reallocate (ptr newSize : Nat) (s : HeapState) : Option Nat × HeapState :=
  if ptr = 0 then allocate newSize s
  else if newSize = 0 then (none, freeBlock ptr s)
  else
    match blockIndexAt s.blocks ptr with
    | none => (none, s)
    | some k =>
      let b := s.blocks.getD k ⟨0, false⟩
      if newSize ≤ b.size then (some ptr, s)
      else
        match allocate newSize s with
        | (some newPtr, s1) => (some newPtr, freeBlock ptr s1)
        | (none, s1) => (none, s1)

/-- A failed `allocate` leaves the heap untouched. -/
theorem allocate_none_eq (n : Nat) (s : HeapState) (h : (allocate n s).1 = none) :
    allocate n s = (none, s) := by
  unfold allocate at h ⊢
  by_cases h0 : n = 0
  · simp [h0]
  · simp only [h0, if_false] at h ⊢
    cases hf : findFreeBlock s.blocks (align8 n) with
    | none => simp [hf]
    | some k =>
      rw [hf] at h
      simp only at h
      split at h <;> simp at h

/-- Claim C8: when `reallocate` must grow a live block and the internal
allocation of the new block fails, it returns null and the old block — indeed
the entire heap state, contents and accounting — is left intact. -/
theorem c8_realloc_failure_leaves_heap (s : HeapState) (ptr newSize k : Nat)
    (hptr : ptr ≠ 0) (hk : blockIndexAt s.blocks ptr = some k)
    (hpos : 0 < newSize)
    (hgrow : (s.blocks.getD k ⟨0, false⟩).size < newSize)
    (hfail : (allocate newSize s).1 = none) :
    reallocate ptr newSize s = (none, s) := by
  have hz : ¬(newSize = 0) := by omega
  have hgrow' : (s.blocks[k]?.getD (⟨0, false⟩ : Block)).size < newSize := by
    simpa [List.getD] using hgrow
  have hle : ¬(newSize ≤ (s.blocks[k]?.getD (⟨0, false⟩ : Block)).size) := by omega
  have halloc := allocate_none_eq newSize s hfail
  unfold reallocate
  simp [hptr, hz, hk, hle, halloc, List.getD]

/-- Witness for C8: a 100-byte arena where block 0 holds 8 live bytes and the
lone free block (28 bytes) cannot satisfy a request for 64. -/
theorem c8_witness :
    let s := (allocate 8 (initHeap 100)).2
    reallocate 32 64 s = (none, s) :=
  c8_realloc_failure_leaves_heap _ 32 64 0 (by decide) (by decide) (by decide)
    (by decide) (by decide)

end MiniOS

namespace MiniOS

/-- Counterexample to claim C4 as stated: in an 80-byte arena the single free
block has size 48, which exceeds the rounded request `align8 8 = 8` by exactly
`sizeof(BlockHeader) + 8 = 40`, so the claim requires a split — but `allocate`
hands out the whole 48-byte block unsplit (the block count stays 1, no free
tail is carved). -/
theorem c4_counterexample :
    let s := initHeap 80
    (s.blocks.getD 0 ⟨0, false⟩).isFree = true ∧
    (s.blocks.getD 0 ⟨0, false⟩).size = align8 8 + (HEADER_SIZE + 8) ∧
    findFreeBlock s.blocks (align8 8) = some 0 ∧
    (allocate 8 s).2.blocks = [⟨48, false⟩] ∧
    (allocate 8 s).2.blocks.length = s.blocks.length := by
  decide

/-- Claim C4 as amended: the chosen block is split — tail block of the
remainder minus one header, marked free, spliced immediately after the
allocated block, prefix and suffix of the list untouched — exactly when its
size exceeds the 8-byte-rounded request by strictly more than
`sizeof(BlockHeader) + 8`; otherwise the whole block is handed out unsplit. -/
theorem c4_split_iff_strict_excess (s : HeapState) (size k : Nat) (b : Block)
    (hpos : 0 < size)
    (hfind : findFreeBlock s.blocks (align8 size) = some k)
    (hb : s.blocks[k]? = some b) :
    ((if align8 size + HEADER_SIZE + 8 < b.size then
        (allocate size s).2.blocks.length = s.blocks.length + 1 ∧
        (allocate size s).2.blocks[k]? = some ⟨align8 size, false⟩ ∧
        (allocate size s).2.blocks[k + 1]? = some ⟨b.size - align8 size - HEADER_SIZE, true⟩ ∧
        (allocate size s).2.blocks.drop (k + 2) = s.blocks.drop (k + 1)
      else
        (allocate size s).2.blocks.length = s.blocks.length ∧
        (allocate size s).2.blocks[k]? = some ⟨b.size, false⟩ ∧
        (allocate size s).2.blocks.drop (k + 1) = s.blocks.drop (k + 1)) ∧
     (allocate size s).2.blocks.take k = s.blocks.take k) := by
  have h0 : ¬(size = 0) := by omega
  have hk : k < s.blocks.length := by
    by_contra hc
    push_neg at hc
    rw [List.getElem?_eq_none hc] at hb
    cases hb
  have hbd : s.blocks.getD k ⟨0, false⟩ = b := by simp [List.getD, hb]
  have htl : (s.blocks.take k).length = k := by
    rw [List.length_take]
    omega
  by_cases hsplit : align8 size + HEADER_SIZE + 8 < b.size
  · have hres : (allocate size s).2.blocks =
        s.blocks.take k ++ [⟨align8 size, false⟩, ⟨b.size - align8 size - HEADER_SIZE, true⟩]
          ++ s.blocks.drop (k + 1) := by
      simp only [allocate, h0, if_false, hfind, hbd, hsplit, if_true]
    simp only [hsplit, if_true, hres]
    refine ⟨⟨?_, ?_, ?_, ?_⟩, ?_⟩
    · simp only [List.length_append, List.length_cons, List.length_nil, htl, List.length_drop]
      omega
    · rw [List.append_assoc, List.getElem?_append_right (le_of_eq htl), htl]
      simp
    · rw [List.append_assoc, List.getElem?_append_right (by omega : (s.blocks.take k).length ≤ k + 1), htl]
      simp
    · rw [show s.blocks.take k ++ [⟨align8 size, false⟩, ⟨b.size - align8 size - HEADER_SIZE, true⟩]
             ++ s.blocks.drop (k + 1)
           = (s.blocks.take k ++ [⟨align8 size, false⟩, ⟨b.size - align8 size - HEADER_SIZE, true⟩])
             ++ s.blocks.drop (k + 1) from rfl]
      exact List.drop_left' (by simp [htl])
    · rw [List.append_assoc]
      exact List.take_left' htl
  · have hres : (allocate size s).2.blocks =
        s.blocks.take k ++ [⟨b.size, false⟩] ++ s.blocks.drop (k + 1) := by
      simp only [allocate, h0, if_false, hfind, hbd, hsplit]
    simp only [hsplit, if_false, hres]
    refine ⟨⟨?_, ?_, ?_⟩, ?_⟩
    · simp only [List.length_append, List.length_cons, List.length_nil, htl, List.length_drop]
      omega
    · rw [List.append_assoc, List.getElem?_append_right (le_of_eq htl), htl]
      simp
    · rw [show s.blocks.take k ++ [⟨b.size, false⟩] ++ s.blocks.drop (k + 1)
           = (s.blocks.take k ++ [⟨b.size, false⟩]) ++ s.blocks.drop (k + 1) from rfl]
      exact List.drop_left' (by simp [htl])
    · rw [List.append_assoc]
      exact List.take_left' htl

/-- Witness for the amended C4 on both sides of the strict threshold: a
200-byte arena splits a request of 8 (168 > 48), an 80-byte arena does not
(48 = 48). -/
theorem c4_witness :
    ((if align8 8 + HEADER_SIZE + 8 < (168 : Nat) then
        (allocate 8 (initHeap 200)).2.blocks.length = (initHeap 200).blocks.length + 1 ∧
        (allocate 8 (initHeap 200)).2.blocks[0]? = some ⟨align8 8, false⟩ ∧
        (allocate 8 (initHeap 200)).2.blocks[0 + 1]? = some ⟨168 - align8 8 - HEADER_SIZE, true⟩ ∧
        (allocate 8 (initHeap 200)).2.blocks.drop (0 + 2) = (initHeap 200).blocks.drop (0 + 1)
      else
        (allocate 8 (initHeap 200)).2.blocks.length = (initHeap 200).blocks.length ∧
        (allocate 8 (initHeap 200)).2.blocks[0]? = some ⟨(168 : Nat), false⟩ ∧
        (allocate 8 (initHeap 200)).2.blocks.drop (0 + 1) = (initHeap 200).blocks.drop (0 + 1)) ∧
     (allocate 8 (initHeap 200)).2.blocks.take 0 = (initHeap 200).blocks.take 0) :=
  c4_split_iff_strict_excess (initHeap 200) 8 0 ⟨168, true⟩ (by decide) (by decide) (by decide)

end MiniOS

namespace MiniOS

/-! ### Memory manager (class `MemoryManager` in src/mm/memory_manager.cpp) -/

/-- `TOTAL_PHYSICAL_FRAMES = 1024`. -/
def TOTAL_PHYSICAL_FRAMES : Nat := 1024

/-- `PAGE_SIZE = 4096`. -/
def PAGE_SIZE : Nat := 4096

/-- `MemoryProtection::ReadWrite = Read | Write = 3` (protection is carried as
its `uint8_t` bitfield value). -/
def PROT_READ_WRITE : Nat := 3

structure PageTableEntry where
  frameNumber : Nat
  present : Bool
  dirty : Bool
  accessed : Bool
  protection : Nat
  deriving DecidableEq, Repr

/-- Memory-manager state.  Each page table is an association list of
virtual-page bindings; `frameMap` is the `std::bitset` of frame bits. -/
structure MMState where
  pageTables : List (Nat × List (Nat × PageTableEntry))
  frameMap : Nat → Bool
  totalAllocatedPages : Nat
  pageFaultCount : Nat

/-- `MemoryManager::MemoryManager` (bitset starts cleared). -/
def initMM : MMState :=
  { pageTables := [], frameMap := fun _ => false,
    totalAllocatedPages := 0, pageFaultCount := 0 }

def setFrameBit (fm : Nat → Bool) (f : Nat) (b : Bool) : Nat → Bool :=
  fun j => if j = f then b else fm j

/-- `MemoryManager::allocateFrame`: ascending scan for the first clear bit. -/
def allocateFrame (fm : Nat → Bool) : Option Nat :=
  (List.range TOTAL_PHYSICAL_FRAMES).find? (fun i => !fm i)

/-- `MemoryManager::freeFrame` (frames beyond the bitset are rejected). -/
def freeFrame (fm : Nat → Bool) (f : Nat) : Nat → Bool :=
  if f < TOTAL_PHYSICAL_FRAMES then setFrameBit fm f false else fm

/-- `MemoryManager::createAddressSpace`. -/
def createAddressSpace (t : Nat) (s : MMState) : Bool × MMState :=
  match alookup t s.pageTables with
  | some _ => (false, s)
  | none => (true, { s with pageTables := aupdate t [] s.pageTables })

/-- `MemoryManager::destroyAddressSpace`: free the frame of every present
entry, then drop the table. -/
def destroyAddressSpace (t : Nat) (s : MMState) : Bool × MMState :=
  match alookup t s.pageTables with
  | none => (false, s)
  | some pt =>
    (true, { s with
      frameMap := pt.foldl
        (fun fm e => if e.2.present then freeFrame fm e.2.frameNumber else fm) s.frameMap,
      pageTables := aerase t s.pageTables })

/-- `MemoryManager::allocatePage`.  The returned address models
`physicalMemory_.data() + frame * PAGE_SIZE` with the arena base at 0. -/
def allocatePage (t vp prot : Nat) (s : MMState) : Option Nat × MMState :=
  match alookup t s.pageTables with
  | none => (none, s)
  | some pt =>
    let dup := match alookup vp pt with
      | some e => e.present
      | none => false
    if dup then (none, s)
    else
      match allocateFrame s.frameMap with
      | none => (none, s)
      | some f =>
        let e : PageTableEntry := { frameNumber := f, present := true, dirty := false,
                                    accessed := false, protection := prot }
        (some (f * PAGE_SIZE),
         { s with pageTables := aupdate t (aupdate vp e pt) s.pageTables,
                  frameMap := setFrameBit s.frameMap f true,
                  totalAllocatedPages := s.totalAllocatedPages + 1 })

/-- `MemoryManager::freePage`. -/
def freePage (t vp : Nat) (s : MMState) : Bool × MMState :=
  match alookup t s.pageTables with
  | none => (false, s)
  | some pt =>
    match alookup vp pt with
    | none => (false, s)
    | some e =>
      if e.present then
        (true, { s with frameMap := freeFrame s.frameMap e.frameNumber,
                        pageTables := aupdate t (aerase vp pt) s.pageTables,
                        totalAllocatedPages := s.totalAllocatedPages - 1 })
      else (false, s)

/-- `MemoryManager::translateAddress` (sets `accessed` on a present hit). -/
def translateAddress (t vp : Nat) (s : MMState) : Option Nat × MMState :=
  match alookup t s.pageTables with
  | none => (none, s)
  | some pt =>
    match alookup vp pt with
    | none => (none, s)
    | some e =>
      if e.present then
        (some e.frameNumber,
         { s with pageTables := aupdate t (aupdate vp { e with accessed := true } pt) s.pageTables })
      else (none, s)

/-- `MemoryManager::handlePageFault`: bump the fault counter, then try a
default-protection allocation. -/
def handlePageFault (t vp : Nat) (s : MMState) : Bool × MMState :=
  let r := allocatePage t vp PROT_READ_WRITE { s with pageFaultCount := s.pageFaultCount + 1 }
  (r.1.isSome, r.2)

/-- `MemoryManager::setProtection` (the source checks only that the entry
exists, not that it is present). -/
def setProtection (t vp prot : Nat) (s : MMState) : Bool × MMState :=
  match alookup t s.pageTables with
  | none => (false, s)
  | some pt =>
    match alookup vp pt with
    | none => (false, s)
    | some e =>
      (true, { s with pageTables := aupdate t (aupdate vp { e with protection := prot } pt) s.pageTables })

/-- `MemoryManager::getProtection` (pure query). -/
def getProtection (t vp : Nat) (s : MMState) : Option Nat :=
  match alookup t s.pageTables with
  | none => none
  | some pt =>
    match alookup vp pt with
    | none => none
    | some e => some e.protection

/-- `MemoryManager::getUsedFrameCount` (`bitset::count`). -/
def getUsedFrameCount (s : MMState) : Nat :=
  (List.range TOTAL_PHYSICAL_FRAMES).countP (fun i => s.frameMap i)

/-- `MemoryManager::getFreeFrameCount`. -/
def getFreeFrameCount (s : MMState) : Nat :=
  TOTAL_PHYSICAL_FRAMES - getUsedFrameCount s

/-- `countP` only depends on the predicate's values on the list. -/
theorem countP_ext {α : Type} (p q : α → Bool) (l : List α)
    (h : ∀ a ∈ l, p a = q a) : l.countP p = l.countP q := by
  induction l with
  | nil => rfl
  | cons x xs ih =>
    rw [List.countP_cons, List.countP_cons, h x (by simp),
        ih (fun a ha => h a (by simp [ha]))]

set_option maxRecDepth 8192 in
/-- Claim C5: if `allocatePage(t, p)` succeeds, the following `freePage(t, p)`
returns true and restores `getFreeFrameCount` to exactly its value before the
allocation. -/
theorem c5_alloc_free_restores_count (s : MMState) (t vp prot : Nat)
    (h : (allocatePage t vp prot s).1.isSome = true) :
    (freePage t vp (allocatePage t vp prot s).2).1 = true ∧
    getFreeFrameCount (freePage t vp (allocatePage t vp prot s).2).2 = getFreeFrameCount s := by
  unfold allocatePage at h ⊢
  cases h1 : alookup t s.pageTables with
  | none => rw [h1] at h; simp at h
  | some pt =>
    rw [h1] at h
    simp only at h ⊢
    cases hdup : (match alookup vp pt with | some e => e.present | none => false) with
    | true => rw [hdup] at h; simp at h
    | false =>
      rw [hdup] at h
      simp only [Bool.false_eq_true, if_false] at h ⊢
      cases h2 : allocateFrame s.frameMap with
      | none => rw [h2] at h; simp at h
      | some f =>
        unfold allocateFrame at h2
        have hmem : f ∈ List.range TOTAL_PHYSICAL_FRAMES := List.mem_of_find?_eq_some h2
        have hf : f < TOTAL_PHYSICAL_FRAMES := List.mem_range.mp hmem
        have hpf := List.find?_some h2
        have hfm : s.frameMap f = false := by simpa using hpf
        simp only [freePage, alookup_aupdate_self]
        refine ⟨rfl, ?_⟩
        unfold getFreeFrameCount getUsedFrameCount
        congr 1
        apply countP_ext
        intro i _
        simp only [freeFrame, hf, if_true, setFrameBit]
        by_cases hif : i = f
        · simp [hif, hfm]
        · simp [hif]

set_option maxRecDepth 8192 in
/-- Witness for C5: task 1's fresh address space, page 5, ReadWrite. -/
theorem c5_witness :
    let s := (createAddressSpace 1 initMM).2
    (freePage 1 5 (allocatePage 1 5 3 s).2).1 = true ∧
    getFreeFrameCount (freePage 1 5 (allocatePage 1 5 3 s).2).2 = getFreeFrameCount s :=
  c5_alloc_free_restores_count _ 1 5 3 (by decide)

end MiniOS

namespace MiniOS

/-! ### The frame-bitmap / page-table invariant (claim C3) -/

/-- 1 when the entry is a present mapping of frame `i`, else 0. -/
def entryWeight (i : Nat) (e : PageTableEntry) : Nat :=
  if e.present = true ∧ e.frameNumber = i then 1 else 0

/-- Number of present entries of one page table that reference frame `i`. -/
def tableCount (pt : List (Nat × PageTableEntry)) (i : Nat) : Nat :=
  (pt.map (fun p => entryWeight i p.2)).sum

/-- Number of present PTEs across all page tables that reference frame `i`. -/
def refCount (s : MMState) (i : Nat) : Nat :=
  (s.pageTables.map (fun tpt => tableCount tpt.2 i)).sum

/-- Inductive invariant: every stored entry is present (the code never stores a
non-present one), and every in-range frame bit agrees with the number of PTEs
referencing that frame. -/
def MMInv (s : MMState) : Prop :=
  (∀ tpt ∈ s.pageTables, ∀ e ∈ tpt.2, e.2.present = true) ∧
  (∀ i, i < TOTAL_PHYSICAL_FRAMES → refCount s i = (if s.frameMap i then 1 else 0))

/-- One public memory-manager call (`getProtection` is a pure query). -/
inductive MMStep : MMState → MMState → Prop where
  | createAS (t : Nat) (s : MMState) : MMStep s (createAddressSpace t s).2
  | destroyAS (t : Nat) (s : MMState) : MMStep s (destroyAddressSpace t s).2
  | allocPage (t vp prot : Nat) (s : MMState) : MMStep s (allocatePage t vp prot s).2
  | freeP (t vp : Nat) (s : MMState) : MMStep s (freePage t vp s).2
  | translate (t vp : Nat) (s : MMState) : MMStep s (translateAddress t vp s).2
  | fault (t vp : Nat) (s : MMState) : MMStep s (handlePageFault t vp s).2
  | setProt (t vp prot : Nat) (s : MMState) : MMStep s (setProtection t vp prot s).2
  | getProt (t vp : Nat) (s : MMState) : MMStep s s

/-- States reachable by any sequence of the eight calls of the claim. -/
inductive MMReach : MMState → Prop where
  | init : MMReach initMM
  | step {s s' : MMState} : MMReach s → MMStep s s' → MMReach s'

theorem alookup_some_mem {κ α : Type} [DecidableEq κ] {k : κ} {v : α} :
    ∀ {l : List (κ × α)}, alookup k l = some v → (k, v) ∈ l := by
  intro l
  induction l with
  | nil => intro h; cases h
  | cons hd tl ih =>
    obtain ⟨k0, v0⟩ := hd
    intro h
    by_cases h0 : k0 = k
    · rw [alookup, if_pos h0] at h
      injection h with h
      subst h0
      subst h
      exact List.mem_cons_self _ _
    · rw [alookup, if_neg h0] at h
      exact List.mem_cons_of_mem _ (ih h)

theorem aupdate_eq_append {κ α : Type} [DecidableEq κ] {k : κ} (v : α) :
    ∀ {l : List (κ × α)}, alookup k l = none → aupdate k v l = l ++ [(k, v)] := by
  intro l
  induction l with
  | nil => intro _; rfl
  | cons hd tl ih =>
    obtain ⟨k0, v0⟩ := hd
    intro h
    by_cases h0 : k0 = k
    · rw [alookup, if_pos h0] at h
      cases h
    · rw [alookup, if_neg h0] at h
      rw [aupdate, if_neg h0, ih h]
      rfl

theorem mem_aupdate {κ α : Type} [DecidableEq κ] {k : κ} {v : α} {x : κ × α} :
    ∀ {l : List (κ × α)}, x ∈ aupdate k v l → x = (k, v) ∨ x ∈ l := by
  intro l
  induction l with
  | nil =>
    intro h
    simp [aupdate] at h
    exact Or.inl h
  | cons hd tl ih =>
    obtain ⟨k0, v0⟩ := hd
    intro h
    by_cases h0 : k0 = k
    · rw [aupdate, if_pos h0] at h
      rcases List.mem_cons.mp h with h | h
      · exact Or.inl h
      · exact Or.inr (List.mem_cons_of_mem _ h)
    · rw [aupdate, if_neg h0] at h
      rcases List.mem_cons.mp h with h | h
      · exact Or.inr (h ▸ List.mem_cons_self _ _)
      · rcases ih h with h | h
        · exact Or.inl h
        · exact Or.inr (List.mem_cons_of_mem _ h)

theorem mem_aerase {κ α : Type} [DecidableEq κ] {k : κ} {x : κ × α} :
    ∀ {l : List (κ × α)}, x ∈ aerase k l → x ∈ l := by
  intro l
  induction l with
  | nil => intro h; cases h
  | cons hd tl ih =>
    obtain ⟨k0, v0⟩ := hd
    intro h
    by_cases h0 : k0 = k
    · rw [aerase, if_pos h0] at h
      exact List.mem_cons_of_mem _ h
    · rw [aerase, if_neg h0] at h
      rcases List.mem_cons.mp h with h | h
      · exact h ▸ List.mem_cons_self _ _
      · exact List.mem_cons_of_mem _ (ih h)

theorem sum_map_aupdate {κ α : Type} [DecidableEq κ] (g : α → Nat) (k : κ) (v' : α) :
    ∀ (l : List (κ × α)) (v : α), alookup k l = some v →
      ((aupdate k v' l).map (fun p => g p.2)).sum + g v
        = (l.map (fun p => g p.2)).sum + g v' := by
  intro l
  induction l with
  | nil => intro v h; cases h
  | cons hd tl ih =>
    obtain ⟨k0, v0⟩ := hd
    intro v h
    by_cases h0 : k0 = k
    · rw [alookup, if_pos h0] at h
      injection h with h
      subst h
      rw [aupdate, if_pos h0]
      simp [Nat.add_comm, Nat.add_left_comm]
    · rw [alookup, if_neg h0] at h
      rw [aupdate, if_neg h0]
      simp only [List.map_cons, List.sum_cons]
      have := ih v h
      omega

theorem sum_map_aerase {κ α : Type} [DecidableEq κ] (g : α → Nat) (k : κ) :
    ∀ (l : List (κ × α)) (v : α), alookup k l = some v →
      (l.map (fun p => g p.2)).sum = ((aerase k l).map (fun p => g p.2)).sum + g v := by
  intro l
  induction l with
  | nil => intro v h; cases h
  | cons hd tl ih =>
    obtain ⟨k0, v0⟩ := hd
    intro v h
    by_cases h0 : k0 = k
    · rw [alookup, if_pos h0] at h
      injection h with h
      subst h
      rw [aerase, if_pos h0]
      simp [Nat.add_comm]
    · rw [alookup, if_neg h0] at h
      rw [aerase, if_neg h0]
      simp only [List.map_cons, List.sum_cons]
      have := ih v h
      omega

theorem nat_le_sum_of_mem : ∀ {l : List Nat} {x : Nat}, x ∈ l → x ≤ l.sum := by
  intro l
  induction l with
  | nil => intro x h; cases h
  | cons hd tl ih =>
    intro x h
    rcases List.mem_cons.mp h with h | h
    · subst h; simp [List.sum_cons]
    · have := ih h
      simp [List.sum_cons]
      omega

theorem sum_map_pos_iff {α : Type} (g : α → Nat) (l : List α) :
    0 < (l.map g).sum ↔ ∃ a ∈ l, 0 < g a := by
  induction l with
  | nil => simp
  | cons hd tl ih =>
    simp only [List.map_cons, List.sum_cons, List.mem_cons]
    constructor
    · intro h
      by_cases hh : 0 < g hd
      · exact ⟨hd, Or.inl rfl, hh⟩
      · have : 0 < (tl.map g).sum := by omega
        obtain ⟨a, ha, hga⟩ := ih.mp this
        exact ⟨a, Or.inr ha, hga⟩
    · rintro ⟨a, (rfl | ha), hga⟩
      · omega
      · have := ih.mpr ⟨a, ha, hga⟩
        omega

/-- Effect of `destroyAddressSpace`'s frame-freeing loop on one in-range bit. -/
theorem destroy_fold_frames (j : Nat) (hj : j < TOTAL_PHYSICAL_FRAMES) :
    ∀ (pt : List (Nat × PageTableEntry)) (fm : Nat → Bool),
      (pt.foldl (fun fm e => if e.2.present then freeFrame fm e.2.frameNumber else fm) fm) j
        = (fm j && !(pt.any (fun e => e.2.present && (e.2.frameNumber == j)))) := by
  intro pt
  induction pt with
  | nil => intro fm; simp
  | cons hd tl ih =>
    intro fm
    rw [List.foldl_cons, List.any_cons, ih]
    cases hp : hd.2.present with
    | false => simp [hp]
    | true =>
      by_cases hfj : hd.2.frameNumber = j
      · rw [hfj]
        simp [hp, freeFrame, hj, setFrameBit]
      · have hjf : ¬(j = hd.2.frameNumber) := fun e => hfj (Eq.symm e)
        have hbe : (hd.2.frameNumber == j) = false := by
          simp [hfj]
        simp only [hp, if_true, freeFrame, hbe, Bool.true_and, Bool.false_or]
        by_cases hft : hd.2.frameNumber < TOTAL_PHYSICAL_FRAMES
        · simp [hft, setFrameBit, hjf]
        · simp [hft]

end MiniOS

namespace MiniOS

/-- `refCount` as a function of the page-table list alone. -/
def refCountL (pts : List (Nat × List (Nat × PageTableEntry))) (i : Nat) : Nat :=
  (pts.map (fun tpt => tableCount tpt.2 i)).sum

theorem refCountL_aupdate (t : Nat) (pt pt' : List (Nat × PageTableEntry))
    (pts : List (Nat × List (Nat × PageTableEntry))) (hl : alookup t pts = some pt) (i : Nat) :
    refCountL (aupdate t pt' pts) i + tableCount pt i = refCountL pts i + tableCount pt' i :=
  sum_map_aupdate (fun q => tableCount q i) t pt' pts pt hl

theorem refCountL_aerase (t : Nat) (pt : List (Nat × PageTableEntry))
    (pts : List (Nat × List (Nat × PageTableEntry))) (hl : alookup t pts = some pt) (i : Nat) :
    refCountL pts i = refCountL (aerase t pts) i + tableCount pt i :=
  sum_map_aerase (fun q => tableCount q i) t pts pt hl

theorem tableCount_aupdate (vp : Nat) (e e' : PageTableEntry) (pt : List (Nat × PageTableEntry))
    (hvp : alookup vp pt = some e) (i : Nat) :
    tableCount (aupdate vp e' pt) i + entryWeight i e = tableCount pt i + entryWeight i e' :=
  sum_map_aupdate (entryWeight i) vp e' pt e hvp

theorem tableCount_append (pt : List (Nat × PageTableEntry)) (vp : Nat) (e : PageTableEntry)
    (i : Nat) : tableCount (pt ++ [(vp, e)]) i = tableCount pt i + entryWeight i e := by
  unfold tableCount
  rw [List.map_append, List.sum_append]
  simp

theorem tableCount_aerase (vp : Nat) (e : PageTableEntry) (pt : List (Nat × PageTableEntry))
    (hvp : alookup vp pt = some e) (i : Nat) :
    tableCount pt i = tableCount (aerase vp pt) i + entryWeight i e :=
  sum_map_aerase (entryWeight i) vp pt e hvp

theorem MMInv_createAS (t : Nat) (s : MMState) (h : MMInv s) :
    MMInv (createAddressSpace t s).2 := by
  unfold createAddressSpace
  cases hl : alookup t s.pageTables with
  | some pt => exact h
  | none =>
    show MMInv { s with pageTables := aupdate t [] s.pageTables }
    rw [aupdate_eq_append _ hl]
    constructor
    · intro tpt hm e he
      have hm' : tpt ∈ s.pageTables ++ [(t, ([] : List (Nat × PageTableEntry)))] := hm
      rcases List.mem_append.mp hm' with hmem | hmem
      · exact h.1 tpt hmem e he
      · simp at hmem
        subst hmem
        simp at he
    · intro i hi
      have hinv' : refCountL s.pageTables i = (if s.frameMap i then 1 else 0) := h.2 i hi
      show refCountL (s.pageTables ++ [(t, [])]) i = (if s.frameMap i then 1 else 0)
      unfold refCountL at hinv' ⊢
      rw [List.map_append, List.sum_append]
      simpa [tableCount] using hinv'

theorem MMInv_replace_entry (s : MMState) (t vp : Nat) (pt : List (Nat × PageTableEntry))
    (e e' : PageTableEntry)
    (hl : alookup t s.pageTables = some pt) (hvp : alookup vp pt = some e)
    (hpres : e'.present = e.present) (hfr : e'.frameNumber = e.frameNumber)
    (h : MMInv s) :
    MMInv { s with pageTables := aupdate t (aupdate vp e' pt) s.pageTables } := by
  constructor
  · intro tpt hm e0 he0
    have hm' : tpt ∈ aupdate t (aupdate vp e' pt) s.pageTables := hm
    rcases mem_aupdate hm' with heq | hmem
    · subst heq
      have he0' : e0 ∈ aupdate vp e' pt := he0
      rcases mem_aupdate he0' with heq2 | hmem2
      · subst heq2
        show e'.present = true
        rw [hpres]
        exact h.1 (t, pt) (alookup_some_mem hl) (vp, e) (alookup_some_mem hvp)
      · exact h.1 (t, pt) (alookup_some_mem hl) e0 hmem2
    · exact h.1 tpt hmem e0 he0
  · intro i hi
    have hup := refCountL_aupdate t pt (aupdate vp e' pt) s.pageTables hl i
    have hin := tableCount_aupdate vp e e' pt hvp i
    have hw : entryWeight i e' = entryWeight i e := by
      simp [entryWeight, hpres, hfr]
    have hinv' : refCountL s.pageTables i = (if s.frameMap i then 1 else 0) := h.2 i hi
    show refCountL (aupdate t (aupdate vp e' pt) s.pageTables) i = (if s.frameMap i then 1 else 0)
    omega

theorem MMInv_translate (t vp : Nat) (s : MMState) (h : MMInv s) :
    MMInv (translateAddress t vp s).2 := by
  cases hl : alookup t s.pageTables with
  | none =>
    have heq : translateAddress t vp s = (none, s) := by
      simp [translateAddress, hl]
    rw [heq]
    exact h
  | some pt =>
    cases hvp : alookup vp pt with
    | none =>
      have heq : translateAddress t vp s = (none, s) := by
        simp [translateAddress, hl, hvp]
      rw [heq]
      exact h
    | some e =>
      cases hp : e.present with
      | false =>
        have heq : translateAddress t vp s = (none, s) := by
          simp [translateAddress, hl, hvp, hp]
        rw [heq]
        exact h
      | true =>
        have heq : translateAddress t vp s = (some e.frameNumber,
            { s with pageTables := aupdate t (aupdate vp { e with accessed := true } pt)
                       s.pageTables }) := by
          simp [translateAddress, hl, hvp, hp]
        rw [heq]
        exact MMInv_replace_entry s t vp pt e { e with accessed := true } hl hvp rfl rfl h

theorem MMInv_setProtection (t vp prot : Nat) (s : MMState) (h : MMInv s) :
    MMInv (setProtection t vp prot s).2 := by
  cases hl : alookup t s.pageTables with
  | none =>
    have heq : setProtection t vp prot s = (false, s) := by
      simp [setProtection, hl]
    rw [heq]
    exact h
  | some pt =>
    cases hvp : alookup vp pt with
    | none =>
      have heq : setProtection t vp prot s = (false, s) := by
        simp [setProtection, hl, hvp]
      rw [heq]
      exact h
    | some e =>
      have heq : setProtection t vp prot s = (true,
          { s with pageTables := aupdate t (aupdate vp { e with protection := prot } pt)
                     s.pageTables }) := by
        simp [setProtection, hl, hvp]
      rw [heq]
      exact MMInv_replace_entry s t vp pt e { e with protection := prot } hl hvp rfl rfl h

theorem MMInv_allocatePage (t vp prot : Nat) (s : MMState) (h : MMInv s) :
    MMInv (allocatePage t vp prot s).2 := by
  cases hl : alookup t s.pageTables with
  | none =>
    have heq : allocatePage t vp prot s = (none, s) := by
      simp [allocatePage, hl]
    rw [heq]
    exact h
  | some pt =>
    cases hvp : alookup vp pt with
    | some e =>
      cases hp : e.present with
      | true =>
        have heq : allocatePage t vp prot s = (none, s) := by
          simp [allocatePage, hl, hvp, hp]
        rw [heq]
        exact h
      | false =>
        have hpres := h.1 (t, pt) (alookup_some_mem hl) (vp, e) (alookup_some_mem hvp)
        rw [hp] at hpres
        cases hpres
    | none =>
      cases hfr : allocateFrame s.frameMap with
      | none =>
        have heq : allocatePage t vp prot s = (none, s) := by
          simp [allocatePage, hl, hvp, hfr]
        rw [heq]
        exact h
      | some f =>
        have heq : allocatePage t vp prot s = (some (f * PAGE_SIZE),
            { s with
              pageTables := aupdate t (aupdate vp
                { frameNumber := f, present := true, dirty := false, accessed := false,
                  protection := prot } pt) s.pageTables,
              frameMap := setFrameBit s.frameMap f true,
              totalAllocatedPages := s.totalAllocatedPages + 1 }) := by
          simp [allocatePage, hl, hvp, hfr]
        rw [heq]
        have happ := aupdate_eq_append
          ({ frameNumber := f, present := true, dirty := false, accessed := false,
             protection := prot } : PageTableEntry) hvp
        unfold allocateFrame at hfr
        have hf : f < TOTAL_PHYSICAL_FRAMES := List.mem_range.mp (List.mem_of_find?_eq_some hfr)
        have hfm : s.frameMap f = false := by simpa using List.find?_some hfr
        show MMInv { s with
          pageTables := aupdate t (aupdate vp
            { frameNumber := f, present := true, dirty := false, accessed := false,
              protection := prot } pt) s.pageTables,
          frameMap := setFrameBit s.frameMap f true,
          totalAllocatedPages := s.totalAllocatedPages + 1 }
        constructor
        · intro tpt hm e he
          have hm' : tpt ∈ aupdate t (aupdate vp
              { frameNumber := f, present := true, dirty := false, accessed := false,
                protection := prot } pt) s.pageTables := hm
          rcases mem_aupdate hm' with heq | hmem
          · subst heq
            have he' : e ∈ aupdate vp
                ({ frameNumber := f, present := true, dirty := false, accessed := false,
                   protection := prot } : PageTableEntry) pt := he
            rcases mem_aupdate he' with heq2 | hmem2
            · subst heq2
              rfl
            · exact h.1 (t, pt) (alookup_some_mem hl) e hmem2
          · exact h.1 tpt hmem e he
        · intro i hi
          have hup := refCountL_aupdate t pt (aupdate vp
            { frameNumber := f, present := true, dirty := false, accessed := false,
              protection := prot } pt) s.pageTables hl i
          have htc : tableCount (aupdate vp
              ({ frameNumber := f, present := true, dirty := false, accessed := false,
                 protection := prot } : PageTableEntry) pt) i
              = tableCount pt i + entryWeight i
                  { frameNumber := f, present := true, dirty := false, accessed := false,
                    protection := prot } := by
            rw [happ, tableCount_append]
          have hinv' : refCountL s.pageTables i = (if s.frameMap i then 1 else 0) := h.2 i hi
          show refCountL (aupdate t (aupdate vp
              { frameNumber := f, present := true, dirty := false, accessed := false,
                protection := prot } pt) s.pageTables) i
            = (if setFrameBit s.frameMap f true i then 1 else 0)
          by_cases hif : i = f
          · subst hif
            have hw : entryWeight i
                ({ frameNumber := i, present := true, dirty := false, accessed := false,
                   protection := prot } : PageTableEntry) = 1 := by
              simp [entryWeight]
            rw [hfm] at hinv'
            simp only [Bool.false_eq_true, if_false] at hinv'
            have hone : (if setFrameBit s.frameMap i true i = true then 1 else 0) = 1 := by
              simp [setFrameBit]
            rw [hone]
            omega
          · have hw : entryWeight i
                ({ frameNumber := f, present := true, dirty := false, accessed := false,
                   protection := prot } : PageTableEntry) = 0 := by
              have hne : ¬(f = i) := fun e => hif (Eq.symm e)
              simp [entryWeight, hne]
            have hbit : setFrameBit s.frameMap f true i = s.frameMap i := by
              simp [setFrameBit, hif]
            rw [hbit]
            omega

theorem MMInv_freePage (t vp : Nat) (s : MMState) (h : MMInv s) :
    MMInv (freePage t vp s).2 := by
  cases hl : alookup t s.pageTables with
  | none =>
    have heq : freePage t vp s = (false, s) := by
      simp [freePage, hl]
    rw [heq]
    exact h
  | some pt =>
    cases hvp : alookup vp pt with
    | none =>
      have heq : freePage t vp s = (false, s) := by
        simp [freePage, hl, hvp]
      rw [heq]
      exact h
    | some e =>
      cases hp : e.present with
      | false =>
        have heq : freePage t vp s = (false, s) := by
          simp [freePage, hl, hvp, hp]
        rw [heq]
        exact h
      | true =>
        have heq : freePage t vp s = (true,
            { s with frameMap := freeFrame s.frameMap e.frameNumber,
                     pageTables := aupdate t (aerase vp pt) s.pageTables,
                     totalAllocatedPages := s.totalAllocatedPages - 1 }) := by
          simp [freePage, hl, hvp, hp]
        rw [heq]
        show MMInv { s with frameMap := freeFrame s.frameMap e.frameNumber,
                            pageTables := aupdate t (aerase vp pt) s.pageTables,
                            totalAllocatedPages := s.totalAllocatedPages - 1 }
        constructor
        · intro tpt hm e0 he0
          have hm' : tpt ∈ aupdate t (aerase vp pt) s.pageTables := hm
          rcases mem_aupdate hm' with heq | hmem
          · subst heq
            have he0' : e0 ∈ aerase vp pt := he0
            exact h.1 (t, pt) (alookup_some_mem hl) e0 (mem_aerase he0')
          · exact h.1 tpt hmem e0 he0
        · intro i hi
          have hup := refCountL_aupdate t pt (aerase vp pt) s.pageTables hl i
          have her := tableCount_aerase vp e pt hvp i
          have hinv' : refCountL s.pageTables i = (if s.frameMap i then 1 else 0) := h.2 i hi
          show refCountL (aupdate t (aerase vp pt) s.pageTables) i
              = (if freeFrame s.frameMap e.frameNumber i then 1 else 0)
          by_cases hif : i = e.frameNumber
          · have hw : entryWeight i e = 1 := by
              simp [entryWeight, hp, hif]
            have hpos : 0 < tableCount pt i := by
              apply (sum_map_pos_iff _ _).mpr
              refine ⟨(vp, e), alookup_some_mem hvp, ?_⟩
              show 0 < entryWeight i e
              omega
            have hge2 : tableCount pt i ≤ refCountL s.pageTables i :=
              nat_le_sum_of_mem (List.mem_map.mpr ⟨(t, pt), alookup_some_mem hl, rfl⟩)
            cases hfm : s.frameMap i with
            | false =>
              rw [hfm] at hinv'
              simp only [Bool.false_eq_true, if_false] at hinv'
              omega
            | true =>
              rw [hfm] at hinv'
              simp only [if_true] at hinv'
              have hbit : freeFrame s.frameMap e.frameNumber i = false := by
                rw [← hif]
                simp [freeFrame, hi, setFrameBit]
              rw [hbit]
              simp only [Bool.false_eq_true, if_false]
              omega
          · have hw : entryWeight i e = 0 := by
              have hne : ¬(e.frameNumber = i) := fun h2 => hif (Eq.symm h2)
              simp [entryWeight, hne]
            have hbit : freeFrame s.frameMap e.frameNumber i = s.frameMap i := by
              unfold freeFrame
              by_cases hft : e.frameNumber < TOTAL_PHYSICAL_FRAMES
              · simp [hft, setFrameBit, hif]
              · simp [hft]
            rw [hbit]
            omega

theorem MMInv_destroyAS (t : Nat) (s : MMState) (h : MMInv s) :
    MMInv (destroyAddressSpace t s).2 := by
  unfold destroyAddressSpace
  cases hl : alookup t s.pageTables with
  | none => exact h
  | some pt =>
    show MMInv { s with
      frameMap := pt.foldl (fun fm e => if e.2.present then freeFrame fm e.2.frameNumber else fm)
        s.frameMap,
      pageTables := aerase t s.pageTables }
    constructor
    · intro tpt hm e he
      have hm' : tpt ∈ aerase t s.pageTables := hm
      exact h.1 tpt (mem_aerase hm') e he
    · intro i hi
      have hfold := destroy_fold_frames i hi pt s.frameMap
      have hsum := refCountL_aerase t pt s.pageTables hl i
      have hinv' : refCountL s.pageTables i = (if s.frameMap i then 1 else 0) := h.2 i hi
      show refCountL (aerase t s.pageTables) i
          = (if (pt.foldl (fun fm e => if e.2.present then freeFrame fm e.2.frameNumber else fm)
                 s.frameMap) i then 1 else 0)
      rw [hfold]
      cases hany : pt.any (fun e => e.2.present && (e.2.frameNumber == i)) with
      | false =>
        have htc : tableCount pt i = 0 := by
          by_contra hc
          have hpos : 0 < tableCount pt i := Nat.pos_of_ne_zero hc
          obtain ⟨p, hpmem, hpw⟩ := (sum_map_pos_iff _ _).mp hpos
          have hsat : (p.2.present && (p.2.frameNumber == i)) = true := by
            unfold entryWeight at hpw
            by_cases hcond : p.2.present = true ∧ p.2.frameNumber = i
            · simp [hcond.1, hcond.2]
            · rw [if_neg hcond] at hpw
              omega
          have hcontra : (pt.any (fun e => e.2.present && (e.2.frameNumber == i))) = true :=
            List.any_eq_true.mpr ⟨p, hpmem, hsat⟩
          rw [hany] at hcontra
          cases hcontra
        simp only [Bool.not_false, Bool.and_true]
        omega
      | true =>
        have hpos : 0 < tableCount pt i := by
          obtain ⟨p, hpmem, hpp⟩ := List.any_eq_true.mp hany
          apply (sum_map_pos_iff _ _).mpr
          refine ⟨p, hpmem, ?_⟩
          simp only [Bool.and_eq_true, beq_iff_eq] at hpp
          simp [entryWeight, hpp.1, hpp.2]
        have hge2 : tableCount pt i ≤ refCountL s.pageTables i :=
          nat_le_sum_of_mem (List.mem_map.mpr ⟨(t, pt), alookup_some_mem hl, rfl⟩)
        simp only [Bool.not_true, Bool.and_false, Bool.false_eq_true, if_false]
        cases hfm : s.frameMap i with
        | false =>
          rw [hfm] at hinv'
          simp only [Bool.false_eq_true, if_false] at hinv'
          omega
        | true =>
          rw [hfm] at hinv'
          simp only [if_true] at hinv'
          omega

theorem MMInv_fault (t vp : Nat) (s : MMState) (h : MMInv s) :
    MMInv (handlePageFault t vp s).2 := by
  have h' : MMInv { s with pageFaultCount := s.pageFaultCount + 1 } := h
  exact MMInv_allocatePage t vp PROT_READ_WRITE _ h'

theorem MMInv_init : MMInv initMM := by
  constructor
  · intro tpt hm
    cases hm
  · intro i hi
    simp [refCount, initMM, tableCount]

theorem MMInv_step {s s' : MMState} (hs : MMStep s s') (h : MMInv s) : MMInv s' := by
  cases hs with
  | createAS t s₀ => exact MMInv_createAS t _ h
  | destroyAS t s₀ => exact MMInv_destroyAS t _ h
  | allocPage t vp prot s₀ => exact MMInv_allocatePage t vp prot _ h
  | freeP t vp s₀ => exact MMInv_freePage t vp _ h
  | translate t vp s₀ => exact MMInv_translate t vp _ h
  | fault t vp s₀ => exact MMInv_fault t vp _ h
  | setProt t vp prot s₀ => exact MMInv_setProtection t vp prot _ h
  | getProt t vp s₀ => exact h

theorem MMInv_reach {s : MMState} (h : MMReach s) : MMInv s := by
  induction h with
  | init => exact MMInv_init
  | step _ hs ih => exact MMInv_step hs ih

/-- Claim C3: in every state reachable by any sequence of the eight
memory-manager calls, frame bit `i` is set iff exactly one page-table entry
across all page tables has `frameNumber = i` and `present = true`
(`refCount` is that number of entries). -/
theorem c3_frame_bit_iff_unique_pte (s : MMState) (h : MMReach s) (i : Nat)
    (hi : i < TOTAL_PHYSICAL_FRAMES) :
    s.frameMap i = true ↔ refCount s i = 1 := by
  have hinv := (MMInv_reach h).2 i hi
  cases hfm : s.frameMap i with
  | false =>
    rw [hfm] at hinv
    simp only [Bool.false_eq_true, if_false] at hinv
    constructor
    · intro hc
      cases hc
    · intro hc
      rw [hinv] at hc
      cases hc
  | true =>
    rw [hfm] at hinv
    simp only [if_true] at hinv
    exact ⟨fun _ => hinv, fun _ => rfl⟩

set_option maxRecDepth 8192 in
/-- Witness for C3 on a reachable state with one mapped page: after
`createAddressSpace(1)` and `allocatePage(1, 5)`, frame 0 is allocated and
referenced by exactly one PTE. -/
theorem c3_witness :
    let s1 := (createAddressSpace 1 initMM).2
    let s2 := (allocatePage 1 5 3 s1).2
    s2.frameMap 0 = true ↔ refCount s2 0 = 1 :=
  c3_frame_bit_iff_unique_pte _
    (MMReach.step (MMReach.step MMReach.init (MMStep.createAS 1 initMM))
      (MMStep.allocPage 1 5 3 _)) 0 (by decide)

end MiniOS
